import Mathlib

/-!
Verification of the resume-analyzer core pipeline.

Shallow embedding of the Python source:
- `project/orchestrator.py` (`extract_skills`, `calculate_similarity`, `analyze_resume`)
- `project/nlp/utils/skill_db.py` (`SKILLS_DB`)
- `project/nlp/utils/skill_graph.py` (`SKILL_RELATIONS`, `build_skill_network`)
- `project/nlp/analysis/topic_modeler.py` (`find_topics`)
- `project/nlp/analysis/feedback_generator.py` (`generate_resume_tips`)

External NLP backends (spaCy, sentence-transformers, nltk) are abstracted:
tokenized text is passed as `List String`, the embedding cosine score and the
nltk stopword corpus are parameters, and stages that can raise are modelled as
`Except String` values.  The control logic, data tables and arithmetic are
translated directly from the source.
-/

set_option maxHeartbeats 1000000

namespace ResumeAnalyzer

/-- Model of Python `str.lower()` (ASCII case mapping, as used on the
ASCII-only data of this program). -/
def lowerStr (s : String) : String := String.mk (s.data.map Char.toLower)

/-- Character-level worker for `pyTitle`: the boolean argument records whether
the previous character was alphabetic. -/
def titleAux : Bool → List Char → List Char
  | _, [] => []
  | prevAlpha, c :: cs =>
    if c.isAlpha then
      (if prevAlpha then c.toLower else c.toUpper) :: titleAux true cs
    else
      c :: titleAux false cs

/-- Model of Python `str.title()`: each alphabetic character that follows a
non-alphabetic one is uppercased, every other alphabetic character is
lowercased. -/
def pyTitle (s : String) : String := String.mk (titleAux false s.data)

/-- Model of Python `str.isalpha()` for ASCII text: nonempty and all
characters alphabetic. -/
def pyIsAlpha (s : String) : Bool := !s.data.isEmpty && s.data.all Char.isAlpha

/-- Splits a list of characters at spaces (used to tokenize the vocabulary
phrases, which are space-separated in `SKILLS_DB`). -/
def splitSpaces : List Char → List (List Char)
  | [] => [[]]
  | c :: cs =>
    let rest := splitSpaces cs
    if c = ' ' then [] :: rest
    else (c :: rest.headD []) :: rest.tail

/-- Tokenization of a vocabulary skill phrase: the spaCy pattern `nlp(skill)`
of `orchestrator.py`, modelled as splitting the phrase at spaces. -/
def tokenizeSkill (s : String) : List String :=
  (splitSpaces s.data).map String.mk

/-- Surface text of a contiguous token span, modelling `doc[start:end].text`
(tokens joined by single spaces). -/
def joinSpChars : List (List Char) → List Char
  | [] => []
  | [w] => w
  | w :: ws => w ++ ' ' :: joinSpChars ws

/-- String form of `joinSpChars`. -/
def joinSp (ws : List String) : String := String.mk (joinSpChars (ws.map String.data))

/-- `SKILLS_DB` from `project/nlp/utils/skill_db.py` (a Python set, listed here
in source order). -/
def SKILLS_DB : List String := [
  "python", "java", "javascript", "c#", "c++", "php", "ruby", "go", "swift",
  "kotlin", "typescript", "sql", "html", "css", "bash", "shell", "powershell",
  "r", "perl",
  "react", "react.js", "angular", "vue", "vue.js", "svelte", "jquery",
  "bootstrap", "tailwind css", "material-ui", "redux", "next.js", "gatsby",
  "node.js", "express", "express.js", "django", "flask", "ruby on rails",
  "asp.net", "spring", "spring boot", "laravel", "fastapi",
  "mysql", "postgresql", "sqlite", "mongodb", "redis", "oracle",
  "microsoft sql server", "sql server", "firebase", "cassandra", "dynamodb",
  "mariadb",
  "aws", "amazon web services", "azure", "microsoft azure", "google cloud",
  "gcp", "docker", "kubernetes", "jenkins", "ansible", "terraform", "git",
  "github", "gitlab", "ci/cd", "devops", "heroku", "digitalocean", "lambda",
  "s3", "ec2",
  "pandas", "numpy", "scipy", "scikit-learn", "tensorflow", "pytorch",
  "keras", "matplotlib", "seaborn", "jupyter", "apache spark", "spark",
  "hadoop", "machine learning", "data analysis", "deep learning",
  "natural language processing", "nlp",
  "android", "ios", "react native", "flutter", "xamarin", "swiftui",
  "wordpress", "sharepoint", "jira", "confluence", "trello", "slack",
  "figma", "adobe xd", "photoshop",
  "agile", "scrum", "kanban", "rest", "restful apis", "apis", "graphql",
  "microservices", "object-oriented programming", "oop",
  "functional programming", "test-driven development", "tdd"]

/-- All nonempty contiguous token spans of a token list: the candidate match
windows scanned by the spaCy `PhraseMatcher` in `extract_skills`. -/
def windowsList (l : List String) : List (List String) :=
  l.tails.flatMap (fun t => (List.range t.length).map (fun n => t.take (n + 1)))

/-- A window matches a vocabulary pattern when the lowercased tokens agree,
modelling `PhraseMatcher(nlp.vocab, attr=LOWER)`. -/
def windowMatches (w : List String) : Bool :=
  SKILLS_DB.any (fun sk => decide (w.map lowerStr = (tokenizeSkill sk).map lowerStr))

/-- Worker for `dedupFirst`, keeping the first occurrence of each element
not already in `seen`. -/
def dedupFirstAux (seen : List String) : List String → List String
  | [] => []
  | x :: xs => if x ∈ seen then dedupFirstAux seen xs else x :: dedupFirstAux (x :: seen) xs

/-- First-occurrence deduplication: models collecting values into a Python
`set`/`Counter` (for a `set` only the resulting membership matters; for a
`Counter` the keys iterate in first-insertion order, which this preserves). -/
def dedupFirst (l : List String) : List String := dedupFirstAux [] l

/-- Lexicographic order on character lists by code point, the order Python
uses to compare strings. -/
def leChars : List Char → List Char → Bool
  | [], _ => true
  | _ :: _, [] => false
  | a :: as, b :: bs =>
    if a.toNat = b.toNat then leChars as bs
    else decide (a.toNat < b.toNat)

/-- Python string comparison `a <= b` as a proposition. -/
def strLe (a b : String) : Prop := leChars a.data b.data = true

instance : DecidableRel strLe :=
  fun a b => instDecidableEqBool (leChars a.data b.data) true

/-- Python `sorted` on strings (ascending lexicographic order by code point). -/
def sortStr (l : List String) : List String :=
  List.insertionSort strLe l

/-- `extract_skills` from `project/orchestrator.py`, over the token stream of
the input text: every contiguous span whose lowercased tokens equal the
lowercased tokens of a vocabulary skill contributes its *surface* text
`doc[start:end].text` to the result set, which is returned sorted. -/
def extract_skills (tokens : List String) : List String :=
  sortStr (dedupFirst (((windowsList tokens).filter windowMatches).map joinSp))

/-- Python `round(x, 2)`: round to two decimal places (halfway cases are
immaterial here; the bounds proved below are monotone in the rounding). -/
def round2 (x : ℚ) : ℚ := (round (x * 100) : ℚ) / 100

/-- `calculate_similarity` from `project/orchestrator.py`.  The embedding
model is external, so the cosine similarity `cos` of the two encoded texts is
a parameter; the function body `round(cosine_score.item() * 100, 2)` and the
empty-text guard are translated directly. -/
def calculate_similarity (resume_text jd_text : String) (cos : ℚ) : ℚ :=
  if resume_text = "" ∨ jd_text = "" then 0
  else round2 (cos * 100)

/-- The custom stopword additions of `find_topics` in
`project/nlp/analysis/topic_modeler.py`. -/
def custom_stopwords : List String :=
  ["responsibilities", "company", "ltd", "sri", "lanka", "work", "role",
   "assisted", "development", "management"]

/-- The token-filtering step of `find_topics`: tokens come from
`word_tokenize(experience_text.lower())` (tokenizer modelled as a token
stream of the analyzed region, with the `lower()` applied token-wise); keep
alphabetic tokens longer than 3 characters that are in neither the nltk
English stopword list (external corpus, passed as `stop_words`) nor the
custom additions. -/
def filteredTokens (tokens stop_words : List String) : List String :=
  (tokens.map lowerStr).filter
    (fun w => pyIsAlpha w && !(decide (w ∈ stop_words ++ custom_stopwords)) &&
      decide (w.length > 3))

/-- Number of occurrences of `w` in `l` (a `Counter` entry). -/
def countOcc (l : List String) (w : String) : Nat :=
  (l.filter (fun y => decide (y = w))).length

/-- First element of `l` whose count `c` is maximal (earliest wins ties):
one selection step of `Counter.most_common`. -/
def pickBest (c : String → Nat) : List String → Option String
  | [] => none
  | w :: ws =>
    match pickBest c ws with
    | none => some w
    | some b => if c b > c w then some b else some w

/-- Repeated best-first selection of at most `n` candidates. -/
def mostCommonAux (c : String → Nat) : Nat → List String → List String
  | 0, _ => []
  | n + 1, cands =>
    match pickBest c cands with
    | none => []
    | some b => b :: mostCommonAux c n (cands.erase b)

/-- Model of `Counter(filtered).most_common(n)`: the `n` highest-count words,
highest first.  CPython computes this as a stable descending sort of the
counter items, which iterate in first-insertion order, so ties are resolved
in favor of the earlier first occurrence — exactly what repeated
earliest-maximum selection over the first-occurrence key list produces. -/
def mostCommon (filtered : List String) (n : Nat) : List String :=
  mostCommonAux (countOcc filtered) n (dedupFirst filtered)

/-- The ranked topic words of `find_topics` (before title-casing). -/
def topicWords (tokens stop_words : List String) (n : Nat) : List String :=
  mostCommon (filteredTokens tokens stop_words) n

/-- `find_topics` from `project/nlp/analysis/topic_modeler.py`, over the
token stream of the analyzed text region (the text after the first matched
section header, or the whole text; the regex section narrowing and
`word_tokenize` are external).  `n` is `num_themes`, default 5 at the call
site. -/
def find_topics (tokens stop_words : List String) (n : Nat) : List String :=
  (topicWords tokens stop_words n).map pyTitle

/-- `BasicInfo`: the metadata dict produced by the parsers
(`name`/`email`/`phone`/`pages`/`format` keys); `Option` models possibly
absent keys, read with `dict.get`. -/
structure BasicInfo where
  name : Option String
  email : Option String
  phone : Option String
  pages : Option Nat
  format : Option String
deriving DecidableEq

/-- The fixed action-verb list of `generate_resume_tips`. -/
def action_verbs : List String :=
  ["developed", "managed", "led", "created", "implemented", "designed",
   "analyzed", "optimized", "automated"]

/-- Number of lines of the text whose stripped, lowercased form starts with
one of the action verbs. -/
def actionVerbCount (text : String) : Nat :=
  ((text.splitOn "\n").filter
    (fun line => action_verbs.any (fun v => (lowerStr line.trim).startsWith v))).length

/-- Occurrence of the regex `\d+%`: some digit immediately followed by a
percent sign. -/
def hasDigitPercent : List Char → Bool
  | c :: d :: rest => (c.isDigit && decide (d = '%')) || hasDigitPercent (d :: rest)
  | _ => false

/-- Occurrence of the regex `[\$€£]\d+`: a currency sign immediately
followed by a digit. -/
def hasCurrencyDigit : List Char → Bool
  | c :: d :: rest =>
    ((decide (c = '$') || decide (c = '€') || decide (c = '£')) && d.isDigit) ||
      hasCurrencyDigit (d :: rest)
  | _ => false

/-- Whether `cs` starts with the literal `pat` followed by a digit. -/
def litThenDigit : List Char → List Char → Bool
  | [], d :: _ => d.isDigit
  | [], [] => false
  | p :: ps, c :: cs => decide (c = p) && litThenDigit ps cs
  | _ :: _, [] => false

/-- Occurrence of the regex `\steam of \d`: a whitespace character, the
literal `team of `, then a digit. -/
def hasTeamOf : List Char → Bool
  | [] => false
  | c :: rest => (c.isWhitespace && litThenDigit "team of ".data rest) || hasTeamOf rest

def improveVerbsTip : String :=
  "💡 **Action Verbs**: Strengthen your experience bullet points by starting them with powerful action verbs like \x27Developed\x27, \x27Managed\x27, or \x27Optimized\x27."

def successVerbsTip : String :=
  "✅ **Action Verbs**: Great use of action verbs to describe your accomplishments!"

def improveMetricsTip : String :=
  "💡 **Quantifiable Metrics**: Your resume could be more impactful. Try to include numbers and metrics to quantify your achievements (e.g., \x27Increased efficiency by 15%\x27 or \x27Managed a budget of $50k\x27)."

def successMetricsTip : String :=
  "✅ **Quantifiable Metrics**: Excellent job including measurable results and metrics in your experience."

def improveLengthTip : String :=
  "💡 **Resume Length**: Your resume is longer than 2 pages. For most roles, a concise 1-2 page resume is preferred. Review for brevity."

def warnLengthTip : String :=
  "⚠️ **Resume Length**: Could not determine the page count. Ensure the document is a standard PDF."

def successLengthTip : String :=
  "✅ **Resume Length**: Your resume length is concise and professional."

def warnContactTip : String :=
  "⚠️ **Contact Information**: Crucial contact information (email or phone number) seems to be missing. Make sure it\x27s clearly visible at the top of your resume."

def successContactTip : String :=
  "✅ **Contact Information**: Contact details are present and accounted for."

/-- Rule 1 of `generate_resume_tips`: action-verb density. -/
def actionVerbTip (text : String) : String :=
  if actionVerbCount text < 5 then improveVerbsTip else successVerbsTip

/-- Rule 2 of `generate_resume_tips`: quantifiable metrics. -/
def metricsTip (text : String) : String :=
  if !hasDigitPercent text.data && !hasCurrencyDigit text.data && !hasTeamOf text.data
  then improveMetricsTip else successMetricsTip

/-- Rule 3 of `generate_resume_tips`: resume length, via
`basic_info.get(pages, 0)`. -/
def lengthTip (basic_info : BasicInfo) : String :=
  if basic_info.pages.getD 0 > 2 then improveLengthTip
  else if basic_info.pages.getD 0 = 0 then warnLengthTip
  else successLengthTip

/-- Rule 4 of `generate_resume_tips`: contact completeness, via
`basic_info.get(email)`/`basic_info.get(phone)` compared to the
`Not Found` sentinel. -/
def contactTip (basic_info : BasicInfo) : String :=
  if basic_info.email = some "Not Found" ∨ basic_info.phone = some "Not Found"
  then warnContactTip else successContactTip

/-- `generate_resume_tips` from `project/nlp/analysis/feedback_generator.py`:
the four rule blocks append their tips in order. -/
def generate_resume_tips (text : String) (basic_info : BasicInfo) : List String :=
  [actionVerbTip text, metricsTip text, lengthTip basic_info, contactTip basic_info]

/-- `SKILL_RELATIONS` from `project/nlp/utils/skill_graph.py`. -/
def SKILL_RELATIONS : List (String × List String) := [
  ("react", ["javascript", "frontend"]), ("node.js", ["javascript", "backend"]),
  ("express", ["node.js", "backend"]), ("mongodb", ["database", "nosql"]),
  ("python", ["programming", "backend"]), ("flask", ["python", "backend"]),
  ("django", ["python", "backend"]), ("java", ["programming", "backend"]),
  ("spring boot", ["java", "backend"]), ("sql", ["database"]),
  ("mysql", ["sql", "database"]), ("aws", ["cloud", "devops"]),
  ("docker", ["devops"]), ("git", ["version control"]),
  ("javascript", ["programming", "frontend"]), ("php", ["programming", "backend"])]

/-- A graph node as built by `build_skill_network`
(`id`/`label`/`group` keys). -/
structure GNode where
  id : Nat
  label : String
  group : String
deriving DecidableEq

/-- A graph edge as built by `build_skill_network`; `src`/`dst` are the
`from`/`to` keys of the edge dict (`from` is a Lean keyword). -/
structure GEdge where
  src : Nat
  dst : Nat
deriving DecidableEq

/-- The graph value returned by `build_skill_network`. -/
structure SkillGraph where
  nodes : List GNode
  edges : List GEdge
deriving DecidableEq

/-- The mutable locals of `build_skill_network` (`nodes`, `edges`,
`node_ids`, `id_counter`). -/
structure GraphState where
  nodes : List GNode
  edges : List GEdge
  node_ids : List (String × Nat)
  id_counter : Nat
deriving DecidableEq

/-- The `if skill not in node_ids` block of `build_skill_network`: add a
skill node and an edge from the central candidate node (id 0). -/
def addSkillNode (st : GraphState) (skill : String) : GraphState :=
  match st.node_ids.lookup skill with
  | some _ => st
  | none =>
    { nodes := st.nodes ++ [⟨st.id_counter, pyTitle skill, "skill"⟩],
      edges := st.edges ++ [⟨0, st.id_counter⟩],
      node_ids := (skill, st.id_counter) :: st.node_ids,
      id_counter := st.id_counter + 1 }

/-- The `if related not in node_ids` block inside the related-tags loop of
`build_skill_network`: create the related-category node on first reference. -/
def addRelatedNode (st : GraphState) (related : String) : GraphState :=
  match st.node_ids.lookup related with
  | some _ => st
  | none =>
    { nodes := st.nodes ++ [⟨st.id_counter, pyTitle related, "category"⟩],
      edges := st.edges,
      node_ids := (related, st.id_counter) :: st.node_ids,
      id_counter := st.id_counter + 1 }

/-- One iteration of the `for related in SKILL_RELATIONS[skill]` loop:
create the related-category node on first reference, then add the edge
`node_ids[skill] → node_ids[related]` (both keys present at that point; a
missing key would be a Python `KeyError`, modelled by the irrelevant
default 0). -/
def addRelated (st : GraphState) (skill related : String) : GraphState :=
  let st1 := addRelatedNode st related
  { st1 with
    edges := st1.edges ++
      [⟨(st1.node_ids.lookup skill).getD 0, (st1.node_ids.lookup related).getD 0⟩] }

/-- The body of the `for skill in skills` loop of `build_skill_network`. -/
def processSkill (st : GraphState) (skill0 : String) : GraphState :=
  let skill := lowerStr skill0
  let st1 := addSkillNode st skill
  match SKILL_RELATIONS.lookup skill with
  | none => st1
  | some rels => rels.foldl (fun s r => addRelated s skill r) st1

/-- The state of `build_skill_network` after creating the central
`Candidate Skills` node. -/
def initState : GraphState :=
  ⟨[⟨0, "Candidate Skills", "center"⟩], [], [("Candidate Skills", 0)], 1⟩

/-- `build_skill_network` from `project/nlp/utils/skill_graph.py`. -/
def build_skill_network (skills : List String) : SkillGraph :=
  let st := skills.foldl processSkill initState
  ⟨st.nodes, st.edges⟩

/-- The skill-gap computation of `analyze_resume`:
`sorted(list(set(jd_skills) - set(resume_skills)))`. -/
def missingSkills (resume_skills jd_skills : List String) : List String :=
  sortStr (dedupFirst (jd_skills.filter (fun s => !(decide (s ∈ resume_skills)))))

/-- The aggregate result dict assembled by `analyze_resume` (the
`sentiment` field packs the label/description pair). -/
structure AnalysisResult where
  basic_info : BasicInfo
  similarity_score : ℚ
  resume_skills : List String
  missing_skills : List String
  experience_topics : List String
  key_concepts : List String
  sentiment : String × String
  skill_network : SkillGraph
  feedback_tips : List String

/-- What `analyze_resume` returns: either the full results dict or a dict
with a single `error` field. -/
inductive AnalyzeOutcome where
  | ok (r : AnalysisResult)
  | err (msg : String)

/-- Whether an `Except` value models a raised Python exception. -/
def raised {α : Type} : Except String α → Bool
  | .error _ => true
  | .ok _ => false

/-- `analyze_resume` from `project/orchestrator.py`.  Collaborator calls are
parameters: `parse` is the `extract_all_data` result (its exceptions are
caught by the surrounding `try`), `skillsFn`/`simFn` model `extract_skills`
and `calculate_similarity`, which catch their own exceptions and return
defaults, hence are total; the remaining stage calls have no internal
handler, so a raised exception (`Except.error`) propagates to the single
outer `try/except`, which returns the `Analysis failed:` error dict. -/
def analyze_resume
    (parse : Except String (BasicInfo × String)) (jd_text : String)
    (skillsFn : String → List String) (simFn : String → String → ℚ)
    (topicsFn : String → Except String (List String))
    (conceptsFn : String → Except String (List String))
    (sentimentFn : String → Except String (String × String))
    (graphFn : List String → Except String SkillGraph)
    (tipsFn : String → BasicInfo → Except String (List String)) :
    AnalyzeOutcome :=
  match parse with
  | .error e => .err ("Analysis failed: " ++ e)
  | .ok (basic_info, resume_text) =>
    if resume_text = "" then .err "Could not extract text from the document."
    else
      let resume_skills := skillsFn resume_text
      let jd_skills := skillsFn jd_text
      let similarity_score := simFn resume_text jd_text
      match topicsFn resume_text with
      | .error e => .err ("Analysis failed: " ++ e)
      | .ok experience_topics =>
        match conceptsFn resume_text with
        | .error e => .err ("Analysis failed: " ++ e)
        | .ok key_concepts =>
          match sentimentFn resume_text with
          | .error e => .err ("Analysis failed: " ++ e)
          | .ok sentiment =>
            match graphFn resume_skills with
            | .error e => .err ("Analysis failed: " ++ e)
            | .ok skill_network =>
              match tipsFn resume_text basic_info with
              | .error e => .err ("Analysis failed: " ++ e)
              | .ok feedback_tips =>
                .ok { basic_info := basic_info,
                      similarity_score := similarity_score,
                      resume_skills := resume_skills,
                      missing_skills := missingSkills resume_skills jd_skills,
                      experience_topics := experience_topics,
                      key_concepts := key_concepts,
                      sentiment := sentiment,
                      skill_network := skill_network,
                      feedback_tips := feedback_tips }

/-! ### Helper lemmas -/

theorem round_mono_rat {x y : ℚ} (h : x ≤ y) : round x ≤ round y := by
  rw [round_eq, round_eq]
  exact Int.floor_mono (by linarith)

/-- A sample metadata record used to instantiate theorems. -/
def sampleInfo : BasicInfo :=
  ⟨some "Jane Doe", some "jane@example.com", some "0711234567", some 1, some "PDF"⟩

theorem leChars_total : ∀ a b : List Char, leChars a b = true ∨ leChars b a = true
  | [], _ => Or.inl rfl
  | _ :: _, [] => Or.inr rfl
  | a :: as, b :: bs => by
    by_cases h : a.toNat = b.toNat
    · have h' : b.toNat = a.toNat := h.symm
      rcases leChars_total as bs with hl | hr
      · exact Or.inl (by simp [leChars, h, hl])
      · exact Or.inr (by simp [leChars, h', hr])
    · rcases Nat.lt_or_ge a.toNat b.toNat with hlt | hge
      · exact Or.inl (by simp [leChars, h, hlt])
      · have h' : ¬ b.toNat = a.toNat := fun e => h e.symm
        have hba : b.toNat < a.toNat := Nat.lt_of_le_of_ne hge (fun e => h e.symm)
        exact Or.inr (by simp [leChars, h', hba])

theorem leChars_trans : ∀ a b c : List Char,
    leChars a b = true → leChars b c = true → leChars a c = true
  | [], _, _, _, _ => rfl
  | _ :: _, [], _, h, _ => by simp [leChars] at h
  | _ :: _, _ :: _, [], _, h => by simp [leChars] at h
  | a :: as, b :: bs, c :: cs, h1, h2 => by
    simp only [leChars] at h1 h2 ⊢
    by_cases hab : a.toNat = b.toNat <;> by_cases hbc : b.toNat = c.toNat
    · rw [if_pos hab] at h1
      rw [if_pos hbc] at h2
      rw [if_pos (hab.trans hbc)]
      exact leChars_trans as bs cs h1 h2
    · rw [if_pos hab] at h1
      rw [if_neg hbc] at h2
      have hb : b.toNat < c.toNat := of_decide_eq_true h2
      rw [if_neg (by omega)]
      exact decide_eq_true (by omega)
    · rw [if_neg hab] at h1
      have ha : a.toNat < b.toNat := of_decide_eq_true h1
      rw [if_neg (by omega)]
      exact decide_eq_true (by omega)
    · rw [if_neg hab] at h1
      rw [if_neg hbc] at h2
      have ha : a.toNat < b.toNat := of_decide_eq_true h1
      have hb : b.toNat < c.toNat := of_decide_eq_true h2
      rw [if_neg (by omega)]
      exact decide_eq_true (by omega)

instance : IsTotal String strLe := ⟨fun a b => leChars_total a.data b.data⟩

instance : IsTrans String strLe := ⟨fun a b c => leChars_trans a.data b.data c.data⟩

theorem mem_dedupFirstAux : ∀ (l seen : List String) (a : String),
    a ∈ dedupFirstAux seen l ↔ (a ∈ l ∧ a ∉ seen)
  | [], seen, a => by simp [dedupFirstAux]
  | x :: xs, seen, a => by
    by_cases hx : x ∈ seen
    · rw [dedupFirstAux, if_pos hx, mem_dedupFirstAux xs seen a]
      constructor
      · rintro ⟨h1, h2⟩
        exact ⟨List.mem_cons_of_mem _ h1, h2⟩
      · rintro ⟨h1, h2⟩
        rcases List.mem_cons.mp h1 with rfl | h1
        · exact absurd hx h2
        · exact ⟨h1, h2⟩
    · rw [dedupFirstAux, if_neg hx]
      simp only [List.mem_cons, mem_dedupFirstAux xs (x :: seen) a]
      constructor
      · rintro (rfl | ⟨h1, h2⟩)
        · exact ⟨Or.inl rfl, hx⟩
        · exact ⟨Or.inr h1, fun hs => h2 (Or.inr hs)⟩
      · rintro ⟨(rfl | h1), h2⟩
        · exact Or.inl rfl
        · by_cases hax : a = x
          · exact Or.inl hax
          · exact Or.inr ⟨h1, fun hs => hs.elim hax h2⟩

theorem nodup_dedupFirstAux : ∀ (l seen : List String), (dedupFirstAux seen l).Nodup
  | [], _ => List.nodup_nil
  | x :: xs, seen => by
    by_cases hx : x ∈ seen
    · rw [dedupFirstAux, if_pos hx]
      exact nodup_dedupFirstAux xs seen
    · rw [dedupFirstAux, if_neg hx]
      refine List.nodup_cons.mpr ⟨?_, nodup_dedupFirstAux xs (x :: seen)⟩
      intro hmem
      exact ((mem_dedupFirstAux xs (x :: seen) x).mp hmem).2 (List.mem_cons_self x _)

theorem mem_dedupFirst (l : List String) (a : String) : a ∈ dedupFirst l ↔ a ∈ l := by
  rw [dedupFirst, mem_dedupFirstAux]
  simp

theorem nodup_dedupFirst (l : List String) : (dedupFirst l).Nodup :=
  nodup_dedupFirstAux l []

theorem mem_sortStr (l : List String) (a : String) : a ∈ sortStr l ↔ a ∈ l :=
  List.mem_insertionSort strLe

theorem sorted_sortStr (l : List String) : List.Sorted strLe (sortStr l) :=
  List.sorted_insertionSort strLe l

theorem nodup_sortStr (l : List String) (h : l.Nodup) : (sortStr l).Nodup :=
  ((List.perm_insertionSort strLe l).nodup_iff).mpr h

/-! ### C1: similarity score range -/

/-- C1, refuted: with both texts nonempty and a cosine similarity inside
`[-1, 1]`, `calculate_similarity` can return a negative score, because the
code multiplies the cosine by 100 without rescaling `[-1, 1]` to `[0, 100]`. -/
theorem calculate_similarity_negative_counterexample :
    ("a" : String) ≠ "" ∧ ("b" : String) ≠ "" ∧
    (-1 : ℚ) ≤ -1/2 ∧ (-1/2 : ℚ) ≤ 1 ∧
    calculate_similarity "a" "b" (-1/2) = -50 ∧
    calculate_similarity "a" "b" (-1/2) < 0 := by
  have h : calculate_similarity "a" "b" (-1/2) = -50 := by
    unfold calculate_similarity
    rw [if_neg (by decide)]
    norm_num [round2, round_eq]
  refine ⟨by decide, by decide, by norm_num, by norm_num, h, by rw [h]; norm_num⟩

/-- C1, amended: for nonempty texts and cosine in `[-1, 1]`, the score is the
cosine multiplied by 100 and rounded to two decimals, hence lies in
`[-100, 100]` (not `[0, 100]`). -/
theorem calculate_similarity_range (rt jt : String) (c : ℚ)
    (hr : rt ≠ "") (hj : jt ≠ "") (h1 : -1 ≤ c) (h2 : c ≤ 1) :
    calculate_similarity rt jt c = round2 (c * 100) ∧
    -100 ≤ calculate_similarity rt jt c ∧ calculate_similarity rt jt c ≤ 100 := by
  have heq : calculate_similarity rt jt c = round2 (c * 100) := by
    unfold calculate_similarity
    rw [if_neg (by push_neg; exact ⟨hr, hj⟩)]
  have hninety : round ((-10000 : ℚ)) = -10000 := by norm_num [round_eq]
  have hten : round ((10000 : ℚ)) = 10000 := by norm_num [round_eq]
  have hlo : (-10000 : ℤ) ≤ round (c * 100 * 100) := by
    rw [← hninety]
    exact round_mono_rat (by linarith)
  have hhi : round (c * 100 * 100) ≤ 10000 := by
    rw [← hten]
    exact round_mono_rat (by linarith)
  refine ⟨heq, ?_, ?_⟩
  · rw [heq]
    unfold round2
    have hc : ((-10000 : ℤ) : ℚ) ≤ ((round (c * 100 * 100) : ℤ) : ℚ) := by
      exact_mod_cast hlo
    rw [le_div_iff₀ (by norm_num : (0:ℚ) < 100)]
    push_cast at hc
    linarith
  · rw [heq]
    unfold round2
    have hc : ((round (c * 100 * 100) : ℤ) : ℚ) ≤ ((10000 : ℤ) : ℚ) := by
      exact_mod_cast hhi
    rw [div_le_iff₀ (by norm_num : (0:ℚ) < 100)]
    push_cast at hc
    linarith

/-- Witness for `calculate_similarity_range` at concrete inputs. -/
theorem calculate_similarity_range_witness :
    -100 ≤ calculate_similarity "a" "b" (1/2) ∧
    calculate_similarity "a" "b" (1/2) ≤ 100 :=
  ⟨(calculate_similarity_range "a" "b" (1/2) (by decide) (by decide)
      (by norm_num) (by norm_num)).2.1,
   (calculate_similarity_range "a" "b" (1/2) (by decide) (by decide)
      (by norm_num) (by norm_num)).2.2⟩

/-! ### C7: the feedback rule engine always yields exactly 4 tips -/

/-- C7: for every text and metadata record, `generate_resume_tips` returns
exactly 4 tips in the fixed rule order (action verbs, quantifiable metrics,
length, contact information), each rule contributing exactly one tip drawn
from its fixed variants. -/
theorem generate_resume_tips_exactly_four (text : String) (info : BasicInfo) :
    generate_resume_tips text info =
      [actionVerbTip text, metricsTip text, lengthTip info, contactTip info] ∧
    (generate_resume_tips text info).length = 4 ∧
    actionVerbTip text ∈ [improveVerbsTip, successVerbsTip] ∧
    metricsTip text ∈ [improveMetricsTip, successMetricsTip] ∧
    lengthTip info ∈ [improveLengthTip, warnLengthTip, successLengthTip] ∧
    contactTip info ∈ [warnContactTip, successContactTip] := by
  refine ⟨rfl, rfl, ?_, ?_, ?_, ?_⟩
  · unfold actionVerbTip; split <;> simp
  · unfold metricsTip; split <;> simp
  · unfold lengthTip; split
    · simp
    · split <;> simp
  · unfold contactTip; split <;> simp

/-! ### C10: an absent pages key behaves like a page count of 0 -/

/-- C10: a `BasicInfo` with no `pages` key produces exactly the tips of one
reporting 0 pages; the length tip is the page-count warning, and the other
three tips do not depend on the `pages` key at all. -/
theorem generate_resume_tips_missing_pages (text : String)
    (nm em ph fm : Option String) (p : Option Nat) :
    generate_resume_tips text ⟨nm, em, ph, none, fm⟩ =
      generate_resume_tips text ⟨nm, em, ph, some 0, fm⟩ ∧
    lengthTip ⟨nm, em, ph, none, fm⟩ = warnLengthTip ∧
    generate_resume_tips text ⟨nm, em, ph, none, fm⟩ =
      [actionVerbTip text, metricsTip text, warnLengthTip,
       contactTip ⟨nm, em, ph, p, fm⟩] := by
  have hlen : lengthTip ⟨nm, em, ph, none, fm⟩ = warnLengthTip := by
    unfold lengthTip
    simp [Option.getD]
  have hcontact : contactTip ⟨nm, em, ph, none, fm⟩ = contactTip ⟨nm, em, ph, p, fm⟩ := rfl
  have hlen0 : lengthTip ⟨nm, em, ph, some 0, fm⟩ = warnLengthTip := by
    unfold lengthTip
    simp [Option.getD]
  refine ⟨?_, hlen, ?_⟩
  · unfold generate_resume_tips
    rw [hlen, hlen0]
    rfl
  · unfold generate_resume_tips
    rw [hlen, hcontact]

/-! ### C8: empty extracted text short-circuits the pipeline -/

/-- C8: when ingestion yields no usable text (empty string, or the parser
raised), `analyze_resume` returns only the single-field error record, for
*every* possible behavior of the downstream stage collaborators — no stage
influences the outcome, i.e. none runs on the empty text. -/
theorem analyze_resume_empty_text_short_circuit (info : BasicInfo)
    (jd e : String) (skillsFn : String → List String) (simFn : String → String → ℚ)
    (topicsFn conceptsFn : String → Except String (List String))
    (sentimentFn : String → Except String (String × String))
    (graphFn : List String → Except String SkillGraph)
    (tipsFn : String → BasicInfo → Except String (List String)) :
    analyze_resume (.ok (info, "")) jd skillsFn simFn topicsFn conceptsFn
        sentimentFn graphFn tipsFn =
      .err "Could not extract text from the document." ∧
    analyze_resume (.error e) jd skillsFn simFn topicsFn conceptsFn
        sentimentFn graphFn tipsFn =
      .err ("Analysis failed: " ++ e) :=
  ⟨rfl, rfl⟩

/-! ### C6: missing skills are the sorted set difference -/

/-- C6: the skill gap is the sorted, duplicate-free set difference
(job-description skills minus résumé skills): membership is exactly
`in jd and not in resume`, the list is sorted and duplicate-free, and it is
disjoint from the résumé skills; moreover every successful `analyze_resume`
run stores exactly this value in the `missing_skills` field. -/
theorem missing_skills_set_difference (resume_skills jd_skills : List String) :
    (∀ s, s ∈ missingSkills resume_skills jd_skills ↔
      (s ∈ jd_skills ∧ s ∉ resume_skills)) ∧
    List.Sorted strLe (missingSkills resume_skills jd_skills) ∧
    (missingSkills resume_skills jd_skills).Nodup ∧
    (∀ s ∈ missingSkills resume_skills jd_skills, s ∉ resume_skills) ∧
    (∀ (info : BasicInfo) (txt jd : String)
      (skillsFn : String → List String) (simFn : String → String → ℚ)
      (topicsFn conceptsFn : String → Except String (List String))
      (sentimentFn : String → Except String (String × String))
      (graphFn : List String → Except String SkillGraph)
      (tipsFn : String → BasicInfo → Except String (List String))
      (res : AnalysisResult),
      analyze_resume (.ok (info, txt)) jd skillsFn simFn topicsFn conceptsFn
          sentimentFn graphFn tipsFn = .ok res →
      res.resume_skills = skillsFn txt ∧
      res.missing_skills = missingSkills (skillsFn txt) (skillsFn jd)) := by
  have hmem : ∀ s, s ∈ missingSkills resume_skills jd_skills ↔
      (s ∈ jd_skills ∧ s ∉ resume_skills) := by
    intro s
    rw [missingSkills, mem_sortStr, mem_dedupFirst, List.mem_filter]
    simp
  refine ⟨hmem, sorted_sortStr _, nodup_sortStr _ (nodup_dedupFirst _), ?_, ?_⟩
  · intro s hs
    exact ((hmem s).mp hs).2
  · intro info txt jd skillsFn simFn topicsFn conceptsFn sentimentFn graphFn
      tipsFn res hres
    by_cases htxt : txt = ""
    · rw [htxt] at hres
      simp [analyze_resume] at hres
    · rcases h1 : topicsFn txt with e1 | v1
      · simp [analyze_resume, htxt, h1] at hres
      rcases h2 : conceptsFn txt with e2 | v2
      · simp [analyze_resume, htxt, h1, h2] at hres
      rcases h3 : sentimentFn txt with e3 | v3
      · simp [analyze_resume, htxt, h1, h2, h3] at hres
      rcases h4 : graphFn (skillsFn txt) with e4 | v4
      · simp [analyze_resume, htxt, h1, h2, h3, h4] at hres
      rcases h5 : tipsFn txt info with e5 | v5
      · simp [analyze_resume, htxt, h1, h2, h3, h4, h5] at hres
      simp [analyze_resume, htxt, h1, h2, h3, h4, h5] at hres
      rw [← hres]
      exact ⟨rfl, rfl⟩

/-- Witness for `missing_skills_set_difference` at concrete inputs
(spec scenario D: jd skills python and docker, resume skill python). -/
theorem missing_skills_set_difference_witness :
    "docker" ∈ missingSkills ["python"] ["python", "docker"] :=
  ((missing_skills_set_difference ["python"] ["python", "docker"]).1 "docker").mpr
    ⟨by decide, by decide⟩

/-! ### C3: a raising stage aborts the whole pipeline -/

/-- C3, refuted: the body of `analyze_resume` sits in one `try/except`, so a
single raising stage (here topic extraction) turns the whole result into an
error record instead of degrading that stage to its empty default. -/
theorem analyze_resume_stage_failure_counterexample :
    analyze_resume (.ok (sampleInfo, "x")) "jd"
        (fun _ => []) (fun _ _ => 0)
        (fun _ => .error "boom")
        (fun _ => .ok [])
        (fun _ => .ok ("Neutral", "The language is objective and neutral."))
        (fun s => .ok (build_skill_network s))
        (fun _ _ => .ok []) =
      .err "Analysis failed: boom" := rfl

/-- C3, amended: if any of the five unguarded stage calls (topics, concepts,
sentiment, graph, feedback) raises, `analyze_resume` returns an error record
rather than an `AnalysisResult`; only skill extraction and similarity, which
catch their own exceptions, degrade to defaults. -/
theorem analyze_resume_stage_failure_aborts (info : BasicInfo)
    (txt jd : String) (skillsFn : String → List String) (simFn : String → String → ℚ)
    (topicsFn conceptsFn : String → Except String (List String))
    (sentimentFn : String → Except String (String × String))
    (graphFn : List String → Except String SkillGraph)
    (tipsFn : String → BasicInfo → Except String (List String))
    (htxt : txt ≠ "")
    (hfail : raised (topicsFn txt) = true ∨ raised (conceptsFn txt) = true ∨
      raised (sentimentFn txt) = true ∨ raised (graphFn (skillsFn txt)) = true ∨
      raised (tipsFn txt info) = true) :
    ∃ msg, analyze_resume (.ok (info, txt)) jd skillsFn simFn topicsFn
        conceptsFn sentimentFn graphFn tipsFn = .err msg := by
  rcases h1 : topicsFn txt with e1 | v1
  · exact ⟨"Analysis failed: " ++ e1, by simp [analyze_resume, htxt, h1]⟩
  rcases h2 : conceptsFn txt with e2 | v2
  · exact ⟨"Analysis failed: " ++ e2, by simp [analyze_resume, htxt, h1, h2]⟩
  rcases h3 : sentimentFn txt with e3 | v3
  · exact ⟨"Analysis failed: " ++ e3, by simp [analyze_resume, htxt, h1, h2, h3]⟩
  rcases h4 : graphFn (skillsFn txt) with e4 | v4
  · exact ⟨"Analysis failed: " ++ e4, by simp [analyze_resume, htxt, h1, h2, h3, h4]⟩
  rcases h5 : tipsFn txt info with e5 | v5
  · exact ⟨"Analysis failed: " ++ e5, by simp [analyze_resume, htxt, h1, h2, h3, h4, h5]⟩
  simp [raised, h1, h2, h3, h4, h5] at hfail

/-- Witness for `analyze_resume_stage_failure_aborts` at concrete inputs. -/
theorem analyze_resume_stage_failure_aborts_witness :
    ∃ msg, analyze_resume (.ok (sampleInfo, "x")) "jd"
        (fun _ => []) (fun _ _ => 0)
        (fun _ => .ok [])
        (fun _ => .ok [])
        (fun _ => .error "sentiment backend down")
        (fun s => .ok (build_skill_network s))
        (fun _ _ => .ok []) = .err msg :=
  analyze_resume_stage_failure_aborts sampleInfo "x" "jd"
    (fun _ => []) (fun _ _ => 0) (fun _ => .ok []) (fun _ => .ok [])
    (fun _ => .error "sentiment backend down")
    (fun s => .ok (build_skill_network s)) (fun _ _ => .ok [])
    (by decide) (Or.inr (Or.inr (Or.inl rfl)))

/-! ### Graph invariants (C4, C5) -/

/-- The invariant maintained by `build_skill_network` over its loop state:
node ids are exactly `0, ..., id_counter - 1` in creation order; every
registered name maps to an id below the counter and owns a node labelled
with its title-cased form; every edge endpoint is below the counter; the
root node is present; and every node of the `skill` group has an edge from
the root. -/
def GoodState (st : GraphState) : Prop :=
  st.nodes.map GNode.id = List.range st.id_counter ∧
  1 ≤ st.id_counter ∧
  (∀ p ∈ st.node_ids, p.2 < st.id_counter) ∧
  (∀ e ∈ st.edges, e.src < st.id_counter ∧ e.dst < st.id_counter) ∧
  GNode.mk 0 "Candidate Skills" "center" ∈ st.nodes ∧
  (∀ p ∈ st.node_ids, ∃ nd ∈ st.nodes, nd.id = p.2 ∧ nd.label = pyTitle p.1) ∧
  (∀ nd ∈ st.nodes, nd.group = "skill" → GEdge.mk 0 nd.id ∈ st.edges)

theorem lookup_mem_pairs : ∀ {l : List (String × Nat)} {k : String} {v : Nat},
    l.lookup k = some v → (k, v) ∈ l
  | [], _, _, h => by simp [List.lookup] at h
  | (a, b) :: ps, k, v, h => by
    rw [List.lookup] at h
    by_cases hk : k = a
    · subst hk
      simp only [beq_self_eq_true] at h
      cases h
      exact List.mem_cons_self _ _
    · have hne : (k == a) = false := beq_false_of_ne hk
      rw [hne] at h
      exact List.mem_cons_of_mem _ (lookup_mem_pairs h)

theorem lookup_getD_lt {st : GraphState} (h : GoodState st) (k : String) :
    (st.node_ids.lookup k).getD 0 < st.id_counter := by
  cases hk : st.node_ids.lookup k with
  | none =>
    simpa using Nat.lt_of_lt_of_le Nat.zero_lt_one h.2.1
  | some v =>
    simpa using h.2.2.1 _ (lookup_mem_pairs hk)

theorem good_addRelatedNode {st : GraphState} (related : String)
    (h : GoodState st) : GoodState (addRelatedNode st related) := by
  obtain ⟨hids, hone, hnid, hedge, hroot, hlabel, hskill⟩ := h
  unfold addRelatedNode
  cases hl : st.node_ids.lookup related with
  | some v => exact ⟨hids, hone, hnid, hedge, hroot, hlabel, hskill⟩
  | none =>
    refine ⟨?_, ?_, ?_, ?_, ?_, ?_, ?_⟩
    · simp only [List.map_append, hids, List.map_cons, List.map_nil]
      exact (List.range_succ st.id_counter).symm
    · exact Nat.le_succ_of_le hone
    · intro p hp
      rcases List.mem_cons.mp hp with rfl | hp
      · exact Nat.lt_succ_self _
      · exact Nat.lt_succ_of_lt (hnid p hp)
    · intro e he
      exact ⟨Nat.lt_succ_of_lt (hedge e he).1, Nat.lt_succ_of_lt (hedge e he).2⟩
    · exact List.mem_append_left _ hroot
    · intro p hp
      rcases List.mem_cons.mp hp with rfl | hp
      · exact ⟨⟨st.id_counter, pyTitle related, "category"⟩,
          List.mem_append_right _ (List.mem_singleton_self _), rfl, rfl⟩
      · obtain ⟨nd, hnd, h1, h2⟩ := hlabel p hp
        exact ⟨nd, List.mem_append_left _ hnd, h1, h2⟩
    · intro nd hnd hg
      rcases List.mem_append.mp hnd with hnd | hnd
      · exact hskill nd hnd hg
      · rcases List.mem_singleton.mp hnd with rfl
        exact absurd hg (by simp)

theorem good_addRelated {st : GraphState} (skill related : String)
    (h : GoodState st) : GoodState (addRelated st skill related) := by
  have h1 : GoodState (addRelatedNode st related) := good_addRelatedNode related h
  obtain ⟨hids, hone, hnid, hedge, hroot, hlabel, hskill⟩ := h1
  unfold addRelated
  refine ⟨hids, hone, hnid, ?_, hroot, hlabel, ?_⟩
  · intro e he
    rcases List.mem_append.mp he with he | he
    · exact hedge e he
    · rcases List.mem_singleton.mp he with rfl
      exact ⟨lookup_getD_lt ⟨hids, hone, hnid, hedge, hroot, hlabel, hskill⟩ skill,
        lookup_getD_lt ⟨hids, hone, hnid, hedge, hroot, hlabel, hskill⟩ related⟩
  · intro nd hnd hg
    exact List.mem_append_left _ (hskill nd hnd hg)

theorem good_addSkillNode {st : GraphState} (skill : String)
    (h : GoodState st) : GoodState (addSkillNode st skill) := by
  obtain ⟨hids, hone, hnid, hedge, hroot, hlabel, hskill⟩ := h
  unfold addSkillNode
  cases hl : st.node_ids.lookup skill with
  | some v => exact ⟨hids, hone, hnid, hedge, hroot, hlabel, hskill⟩
  | none =>
    refine ⟨?_, ?_, ?_, ?_, ?_, ?_, ?_⟩
    · simp only [List.map_append, hids, List.map_cons, List.map_nil]
      exact (List.range_succ st.id_counter).symm
    · exact Nat.le_succ_of_le hone
    · intro p hp
      rcases List.mem_cons.mp hp with rfl | hp
      · exact Nat.lt_succ_self _
      · exact Nat.lt_succ_of_lt (hnid p hp)
    · intro e he
      rcases List.mem_append.mp he with he | he
      · exact ⟨Nat.lt_succ_of_lt (hedge e he).1, Nat.lt_succ_of_lt (hedge e he).2⟩
      · rcases List.mem_singleton.mp he with rfl
        exact ⟨Nat.lt_of_lt_of_le Nat.zero_lt_one (Nat.le_succ_of_le hone),
          Nat.lt_succ_self _⟩
    · exact List.mem_append_left _ hroot
    · intro p hp
      rcases List.mem_cons.mp hp with rfl | hp
      · exact ⟨⟨st.id_counter, pyTitle skill, "skill"⟩,
          List.mem_append_right _ (List.mem_singleton_self _), rfl, rfl⟩
      · obtain ⟨nd, hnd, ha, hb⟩ := hlabel p hp
        exact ⟨nd, List.mem_append_left _ hnd, ha, hb⟩
    · intro nd hnd hg
      rcases List.mem_append.mp hnd with hnd | hnd
      · exact List.mem_append_left _ (hskill nd hnd hg)
      · rcases List.mem_singleton.mp hnd with rfl
        exact List.mem_append_right _ (List.mem_singleton_self _)

theorem good_foldRels (skill : String) : ∀ (rels : List String)
    {st : GraphState}, GoodState st →
    GoodState (rels.foldl (fun s r => addRelated s skill r) st)
  | [], _, h => h
  | r :: rs, _, h => good_foldRels skill rs (good_addRelated skill r h)

theorem good_processSkill {st : GraphState} (skill0 : String)
    (h : GoodState st) : GoodState (processSkill st skill0) := by
  have h1 : GoodState (addSkillNode st (lowerStr skill0)) :=
    good_addSkillNode (lowerStr skill0) h
  cases h2 : SKILL_RELATIONS.lookup (lowerStr skill0) with
  | none => simpa [processSkill, h2] using h1
  | some rels => simpa [processSkill, h2] using good_foldRels (lowerStr skill0) rels h1

theorem good_initState : GoodState initState := by
  refine ⟨rfl, Nat.le_refl 1, ?_, ?_, ?_, ?_, ?_⟩
  · intro p hp
    rcases List.mem_singleton.mp hp with rfl
    exact Nat.zero_lt_one
  · intro e he
    exact absurd he (List.not_mem_nil e)
  · exact List.mem_singleton_self _
  · intro p hp
    rcases List.mem_singleton.mp hp with rfl
    exact ⟨⟨0, "Candidate Skills", "center"⟩, List.mem_singleton_self _, rfl, by decide⟩
  · intro nd hnd hg
    rcases List.mem_singleton.mp hnd with rfl
    exact absurd hg (by decide)

theorem good_foldSkills : ∀ (skills : List String) {st : GraphState},
    GoodState st → GoodState (skills.foldl processSkill st)
  | [], _, h => h
  | s :: ss, _, h => good_foldSkills ss (good_processSkill s h)

/-- C5: `build_skill_network` always produces pairwise-distinct node ids,
edges whose endpoints are existing node ids, the root node with id 0, and,
for the empty skill list, exactly the root node and no edges. -/
theorem build_skill_network_invariants (skills : List String) :
    ((build_skill_network skills).nodes.map GNode.id).Nodup ∧
    (∀ e ∈ (build_skill_network skills).edges,
      (∃ nd ∈ (build_skill_network skills).nodes, nd.id = e.src) ∧
      (∃ nd ∈ (build_skill_network skills).nodes, nd.id = e.dst)) ∧
    GNode.mk 0 "Candidate Skills" "center" ∈ (build_skill_network skills).nodes ∧
    build_skill_network [] =
      ⟨[⟨0, "Candidate Skills", "center"⟩], []⟩ := by
  have hg : GoodState (skills.foldl processSkill initState) :=
    good_foldSkills skills good_initState
  obtain ⟨hids, hone, hnid, hedge, hroot, hlabel, hskill⟩ := hg
  have hnodes : (build_skill_network skills).nodes =
      (skills.foldl processSkill initState).nodes := rfl
  have hedges : (build_skill_network skills).edges =
      (skills.foldl processSkill initState).edges := rfl
  refine ⟨?_, ?_, ?_, rfl⟩
  · rw [hnodes, hids]
    exact List.nodup_range _
  · intro e he
    rw [hedges] at he
    have h1 := (hedge e he).1
    have h2 := (hedge e he).2
    constructor
    · have : e.src ∈ (skills.foldl processSkill initState).nodes.map GNode.id := by
        rw [hids]
        exact List.mem_range.mpr h1
      obtain ⟨nd, hnd, hid⟩ := List.mem_map.mp this
      exact ⟨nd, by rw [hnodes]; exact hnd, hid⟩
    · have : e.dst ∈ (skills.foldl processSkill initState).nodes.map GNode.id := by
        rw [hids]
        exact List.mem_range.mpr h2
      obtain ⟨nd, hnd, hid⟩ := List.mem_map.mp this
      exact ⟨nd, by rw [hnodes]; exact hnd, hid⟩
  · rw [hnodes]
    exact hroot

/-- Witness for `build_skill_network_invariants` at a concrete input. -/
theorem build_skill_network_invariants_witness :
    ∃ nd ∈ (build_skill_network ["python"]).nodes, nd.id = (GEdge.mk 0 1).dst :=
  ((build_skill_network_invariants ["python"]).2.1 (GEdge.mk 0 1) (by decide)).2

theorem lookup_isSome_cons {k : String} (p : String × Nat) {l : List (String × Nat)}
    (h : (l.lookup k).isSome) : ((p :: l).lookup k).isSome := by
  rcases p with ⟨a, b⟩
  by_cases hk : k = a
  · subst hk
    simp [List.lookup]
  · simp only [List.lookup, beq_false_of_ne hk]
    exact h

theorem addSkillNode_lookup_mono {st : GraphState} (skill k : String)
    (h : (st.node_ids.lookup k).isSome) :
    ((addSkillNode st skill).node_ids.lookup k).isSome := by
  unfold addSkillNode
  cases hl : st.node_ids.lookup skill with
  | some v => exact h
  | none => exact lookup_isSome_cons _ h

theorem addRelatedNode_lookup_mono {st : GraphState} (related k : String)
    (h : (st.node_ids.lookup k).isSome) :
    ((addRelatedNode st related).node_ids.lookup k).isSome := by
  unfold addRelatedNode
  cases hl : st.node_ids.lookup related with
  | some v => exact h
  | none => exact lookup_isSome_cons _ h

theorem addRelated_lookup_mono {st : GraphState} (skill related k : String)
    (h : (st.node_ids.lookup k).isSome) :
    ((addRelated st skill related).node_ids.lookup k).isSome :=
  addRelatedNode_lookup_mono related k h

theorem foldRels_lookup_mono (skill k : String) : ∀ (rels : List String)
    {st : GraphState}, (st.node_ids.lookup k).isSome →
    ((rels.foldl (fun s r => addRelated s skill r) st).node_ids.lookup k).isSome
  | [], _, h => h
  | r :: rs, _, h => foldRels_lookup_mono skill k rs (addRelated_lookup_mono skill r k h)

theorem addSkillNode_lookup_self (st : GraphState) (skill : String) :
    ((addSkillNode st skill).node_ids.lookup skill).isSome := by
  unfold addSkillNode
  cases hl : st.node_ids.lookup skill with
  | some v => rw [hl]; rfl
  | none => simp [List.lookup]

theorem processSkill_lookup_self (st : GraphState) (s : String) :
    ((processSkill st s).node_ids.lookup (lowerStr s)).isSome := by
  cases h2 : SKILL_RELATIONS.lookup (lowerStr s) with
  | none => simpa [processSkill, h2] using addSkillNode_lookup_self st (lowerStr s)
  | some rels =>
    simpa [processSkill, h2] using
      foldRels_lookup_mono (lowerStr s) (lowerStr s) rels
        (addSkillNode_lookup_self st (lowerStr s))

theorem processSkill_lookup_mono (s k : String) {st : GraphState}
    (h : (st.node_ids.lookup k).isSome) :
    ((processSkill st s).node_ids.lookup k).isSome := by
  cases h2 : SKILL_RELATIONS.lookup (lowerStr s) with
  | none => simpa [processSkill, h2] using addSkillNode_lookup_mono (lowerStr s) k h
  | some rels =>
    simpa [processSkill, h2] using
      foldRels_lookup_mono (lowerStr s) k rels (addSkillNode_lookup_mono (lowerStr s) k h)

theorem foldSkills_lookup_mono : ∀ (skills : List String) {st : GraphState}
    {k : String}, (st.node_ids.lookup k).isSome →
    ((skills.foldl processSkill st).node_ids.lookup k).isSome
  | [], _, _, h => h
  | s :: ss, _, k, h => foldSkills_lookup_mono ss (processSkill_lookup_mono s k h)

theorem foldSkills_mem_lookup : ∀ (skills : List String) (st : GraphState),
    ∀ s ∈ skills, ((skills.foldl processSkill st).node_ids.lookup (lowerStr s)).isSome
  | [], _, s, hs => absurd hs (List.not_mem_nil s)
  | x :: xs, st, s, hs => by
    rcases List.mem_cons.mp hs with rfl | hs
    · exact foldSkills_lookup_mono xs (processSkill_lookup_self st s)
    · exact foldSkills_mem_lookup xs (processSkill st x) s hs

/-- C4, refuted: in `build_skill_network ["react", "javascript"]` the skill
`javascript` was already introduced as a related-category node (id 2) of
`react` when its own turn comes, so it is skipped: its node keeps the
`category` group and *no* edge from the root (id 0) to node 2 exists. -/
theorem build_skill_network_missing_root_edge_counterexample :
    GNode.mk 2 "Javascript" "category" ∈
      (build_skill_network ["react", "javascript"]).nodes ∧
    (∀ nd ∈ (build_skill_network ["react", "javascript"]).nodes,
      nd.label = "Javascript" → nd.id = 2) ∧
    (∀ e ∈ (build_skill_network ["react", "javascript"]).edges,
      ¬(e.src = 0 ∧ e.dst = 2)) := by decide

/-- C4, amended: the graph contains one node per distinct skill (labelled
with the title-cased lowercase skill name), and an edge from the root to
every node created as a *skill* node; a skill whose name was already
introduced earlier in the pass as a related-category node reuses that
category node and receives no root edge. -/
theorem build_skill_network_nodes_and_skill_edges (skills : List String) :
    (∀ s ∈ skills, ∃ nd ∈ (build_skill_network skills).nodes,
      nd.label = pyTitle (lowerStr s)) ∧
    (∀ nd ∈ (build_skill_network skills).nodes, nd.group = "skill" →
      GEdge.mk 0 nd.id ∈ (build_skill_network skills).edges) := by
  have hg : GoodState (skills.foldl processSkill initState) :=
    good_foldSkills skills good_initState
  constructor
  · intro s hs
    have hsome := foldSkills_mem_lookup skills initState s hs
    obtain ⟨v, hv⟩ := Option.isSome_iff_exists.mp hsome
    obtain ⟨nd, hnd, h1, h2⟩ := hg.2.2.2.2.2.1 _ (lookup_mem_pairs hv)
    exact ⟨nd, hnd, h2⟩
  · intro nd hnd hgrp
    exact hg.2.2.2.2.2.2 nd hnd hgrp

/-- Witness for `build_skill_network_nodes_and_skill_edges` at a concrete
input. -/
theorem build_skill_network_nodes_and_skill_edges_witness :
    ∃ nd ∈ (build_skill_network ["python"]).nodes,
      nd.label = pyTitle (lowerStr "python") :=
  (build_skill_network_nodes_and_skill_edges ["python"]).1 "python"
    (List.mem_singleton_self "python")

/-! ### C2: the skill matcher returns surface casing, not canonical casing -/

theorem windowsList_decomp {tokens w : List String} (h : w ∈ windowsList tokens) :
    ∃ l1 l2, tokens = l1 ++ w ++ l2 := by
  unfold windowsList at h
  rw [List.mem_flatMap] at h
  obtain ⟨t, ht, hw⟩ := h
  rw [List.mem_map] at hw
  obtain ⟨n, hn, rfl⟩ := hw
  have hsuf : t <:+ tokens := (List.mem_tails t tokens).mp ht
  obtain ⟨l1, hl1⟩ := hsuf
  refine ⟨l1, t.drop (n + 1), ?_⟩
  rw [List.append_assoc, List.take_append_drop]
  exact hl1.symm

/-- C2, refuted on casing: the matcher matches case-insensitively but keeps
the raw surface text: the token `Python` yields the result `Python`, which is
not the canonical lowercase vocabulary form, and `Python` plus `python`
survive side by side as duplicates differing only in case. -/
theorem extract_skills_surface_casing_counterexample :
    extract_skills ["Python"] = ["Python"] ∧
    "Python" ∉ SKILLS_DB ∧
    extract_skills ["Python", "python"] = ["Python", "python"] ∧
    lowerStr "Python" = lowerStr "python" := by decide

/-- C2, amended: every element of `extract_skills` is the surface form of a
contiguous token span of the text whose lowercased tokens coincide with the
lowercased tokens of some vocabulary skill — membership in the vocabulary
holds only up to lowercasing, not in canonical casing. -/
theorem extract_skills_surface_form {tokens : List String} {s : String}
    (h : s ∈ extract_skills tokens) :
    ∃ (w : List String) (sk : String), sk ∈ SKILLS_DB ∧
      (∃ l1 l2, tokens = l1 ++ w ++ l2) ∧
      w.map lowerStr = (tokenizeSkill sk).map lowerStr ∧ s = joinSp w := by
  rw [extract_skills, mem_sortStr, mem_dedupFirst, List.mem_map] at h
  obtain ⟨w, hw, rfl⟩ := h
  rw [List.mem_filter] at hw
  obtain ⟨hwin, hmatch⟩ := hw
  rw [windowMatches, List.any_eq_true] at hmatch
  obtain ⟨sk, hsk, heq⟩ := hmatch
  rw [decide_eq_true_eq] at heq
  exact ⟨w, sk, hsk, windowsList_decomp hwin, heq, rfl⟩

/-- Witness for `extract_skills_surface_form` at a concrete input. -/
theorem extract_skills_surface_form_witness :
    ∃ (w : List String) (sk : String), sk ∈ SKILLS_DB ∧
      (∃ l1 l2, (["Python"] : List String) = l1 ++ w ++ l2) ∧
      w.map lowerStr = (tokenizeSkill sk).map lowerStr ∧ "Python" = joinSp w :=
  extract_skills_surface_form (by decide)

/-! ### C9: topic extraction — filtering, cap and ranking -/

theorem pickBest_eq_none (c : String → Nat) : ∀ {l : List String},
    pickBest c l = none → l = []
  | [], _ => rfl
  | w :: ws, h => by
    rw [pickBest] at h
    rcases hb : pickBest c ws with _ | b <;> rw [hb] at h <;> dsimp only at h
    · cases h
    · by_cases hc : c b > c w
      · rw [if_pos hc] at h
        cases h
      · rw [if_neg hc] at h
        cases h

theorem pickBest_spec (c : String → Nat) : ∀ {l : List String} {b : String},
    pickBest c l = some b →
    ∃ l1 l2, l = l1 ++ b :: l2 ∧ (∀ x ∈ l1, c x < c b) ∧ (∀ x ∈ l2, c x ≤ c b)
  | [], _, h => by simp [pickBest] at h
  | w :: ws, b, h => by
    rw [pickBest] at h
    rcases hb : pickBest c ws with _ | b' <;> rw [hb] at h <;> dsimp only at h
    · rw [Option.some.injEq] at h
      subst h
      have hws := pickBest_eq_none c hb
      subst hws
      exact ⟨[], [], rfl, by simp, by simp⟩
    · obtain ⟨m1, m2, hdec, hlt, hle⟩ := pickBest_spec c hb
      by_cases hc : c b' > c w
      · rw [if_pos hc, Option.some.injEq] at h
        subst h
        refine ⟨w :: m1, m2, by rw [hdec, List.cons_append], ?_, hle⟩
        intro x hx
        rcases List.mem_cons.mp hx with rfl | hx
        · exact hc
        · exact hlt x hx
      · rw [if_neg hc, Option.some.injEq] at h
        subst h
        push_neg at hc
        refine ⟨[], ws, rfl, by simp, ?_⟩
        intro x hx
        rw [hdec] at hx
        rcases List.mem_append.mp hx with hx | hx
        · exact le_trans (le_of_lt (hlt x hx)) hc
        · rcases List.mem_cons.mp hx with rfl | hx
          · exact hc
          · exact le_trans (hle x hx) hc

theorem mostCommonAux_length (c : String → Nat) : ∀ (n : Nat) (cands : List String),
    (mostCommonAux c n cands).length ≤ n
  | 0, _ => Nat.le_refl 0
  | n + 1, cands => by
    rw [mostCommonAux]
    cases hb : pickBest c cands with
    | none => simp
    | some b => simpa using Nat.succ_le_succ (mostCommonAux_length c n (cands.erase b))

theorem mostCommonAux_subset (c : String → Nat) : ∀ (n : Nat) (cands : List String),
    ∀ a ∈ mostCommonAux c n cands, a ∈ cands
  | 0, _, a, ha => by simp [mostCommonAux] at ha
  | n + 1, cands, a, ha => by
    rw [mostCommonAux] at ha
    cases hb : pickBest c cands with
    | none => rw [hb] at ha; simp at ha
    | some b =>
      rw [hb] at ha
      rcases List.mem_cons.mp ha with rfl | ha
      · obtain ⟨l1, l2, hdec, h1, h2⟩ := pickBest_spec c hb
        rw [hdec]
        exact List.mem_append_right _ (List.mem_cons_self _ _)
      · exact List.erase_subset _ _ (mostCommonAux_subset c n _ a ha)

theorem mostCommonAux_pairwise (c : String → Nat) : ∀ (n : Nat) (cands : List String),
    (mostCommonAux c n cands).Pairwise
      (fun a b => c b < c a ∨ (c a = c b ∧ List.Sublist [a, b] cands))
  | 0, _ => by rw [mostCommonAux]; exact List.Pairwise.nil
  | n + 1, cands => by
    rw [mostCommonAux]
    cases hb : pickBest c cands with
    | none => exact List.Pairwise.nil
    | some b =>
      obtain ⟨l1, l2, hdec, hlt, hle⟩ := pickBest_spec c hb
      have hbl1 : b ∉ l1 := fun hmem => lt_irrefl _ (hlt b hmem)
      have herase : cands.erase b = l1 ++ l2 := by
        rw [hdec, List.erase_append_right _ hbl1, List.erase_cons_head]
      refine List.pairwise_cons.mpr ⟨?_, ?_⟩
      · intro x hx
        have hx' : x ∈ cands.erase b := mostCommonAux_subset c n _ x hx
        rw [herase] at hx'
        rcases List.mem_append.mp hx' with hx1 | hx2
        · exact Or.inl (hlt x hx1)
        · rcases Nat.lt_or_ge (c x) (c b) with hcase | hcase
          · exact Or.inl hcase
          · have hxb : c b = c x := le_antisymm hcase (hle x hx2)
            refine Or.inr ⟨hxb, ?_⟩
            rw [hdec]
            exact (List.Sublist.cons₂ b (List.singleton_sublist.mpr hx2)).trans
              (List.sublist_append_right l1 (b :: l2))
      · refine (mostCommonAux_pairwise c n (cands.erase b)).imp ?_
        intro a x hax
        rcases hax with hax | ⟨h1, h2⟩
        · exact Or.inl hax
        · exact Or.inr ⟨h1, h2.trans (List.erase_sublist b cands)⟩

theorem mostCommonAux_nil (c : String → Nat) : ∀ (n : Nat),
    mostCommonAux c n [] = []
  | 0 => rfl
  | _ + 1 => rfl

/-- C9: `find_topics` returns at most `n` topics (`num_themes`, default 5 at
the call site); every topic is the title-cased form of a lowercased token of
the analyzed region that is alphabetic, not a stopword, and longer than 3
characters; the underlying topic words are ordered by strictly descending
frequency with ties broken by first-occurrence order in the filtered region
(encoded by `[a, b] <+ dedupFirst (filteredTokens …)`, the distinct filtered
words in first-occurrence order); and an empty filtered-token set yields an
empty list. -/
theorem find_topics_spec (tokens stop_words : List String) (n : Nat) :
    (find_topics tokens stop_words n).length ≤ n ∧
    (∀ t ∈ find_topics tokens stop_words n, ∃ w,
      w ∈ tokens.map lowerStr ∧ pyIsAlpha w = true ∧
      w ∉ stop_words ++ custom_stopwords ∧ w.length > 3 ∧ t = pyTitle w) ∧
    (topicWords tokens stop_words n).Pairwise
      (fun a b => countOcc (filteredTokens tokens stop_words) b <
          countOcc (filteredTokens tokens stop_words) a ∨
        (countOcc (filteredTokens tokens stop_words) a =
            countOcc (filteredTokens tokens stop_words) b ∧
          List.Sublist [a, b] (dedupFirst (filteredTokens tokens stop_words)))) ∧
    find_topics tokens stop_words n = (topicWords tokens stop_words n).map pyTitle ∧
    (filteredTokens tokens stop_words = [] → find_topics tokens stop_words n = []) := by
  refine ⟨?_, ?_, ?_, rfl, ?_⟩
  · rw [find_topics, List.length_map]
    exact mostCommonAux_length _ n _
  · intro t ht
    rw [find_topics, List.mem_map] at ht
    obtain ⟨w, hw, rfl⟩ := ht
    have hmem : w ∈ dedupFirst (filteredTokens tokens stop_words) :=
      mostCommonAux_subset _ n _ w hw
    rw [mem_dedupFirst] at hmem
    rw [filteredTokens, List.mem_filter] at hmem
    obtain ⟨hmem, hpred⟩ := hmem
    rw [Bool.and_eq_true, Bool.and_eq_true] at hpred
    obtain ⟨⟨halpha, hstop⟩, hlen⟩ := hpred
    rw [Bool.not_eq_true'] at hstop
    exact ⟨w, hmem, halpha, of_decide_eq_false hstop, of_decide_eq_true hlen, rfl⟩
  · exact mostCommonAux_pairwise _ n _
  · intro h
    rw [find_topics, topicWords, mostCommon, h]
    rw [show dedupFirst [] = [] from rfl, mostCommonAux_nil]
    rfl

/-- Witness for `find_topics_spec` at concrete inputs: a too-short token set
filters to nothing and yields no topics, and the single surviving token
`leadership` becomes the topic `Leadership`. -/
theorem find_topics_spec_witness :
    find_topics ["the"] [] 5 = [] ∧
    (∃ w, w ∈ (["leadership"] : List String).map lowerStr ∧ pyIsAlpha w = true ∧
      w ∉ ([] : List String) ++ custom_stopwords ∧ w.length > 3 ∧
      "Leadership" = pyTitle w) :=
  ⟨(find_topics_spec ["the"] [] 5).2.2.2.2 (by decide),
   (find_topics_spec ["leadership"] [] 5).2.1 "Leadership" (by decide)⟩

end ResumeAnalyzer
